import Mathlib

/-!
Shallow embedding of the rut-lib crate (src/lib.rs, src/utils.rs,
src/range.rs, src/error.rs): a Chilean RUT parsing/validation/formatting
library.  Machine integers (u8, u32) are modelled as Nat with an explicit
`% 256` where u8 overflow matters; Rust panics are modelled as `none` in an
outer Option layer; Result is modelled as Except.  The regex PATTERN of
src/utils.rs is embedded as a backtracking matcher over the finitely many
alternatives of its optional parts, tried in the regex engine's
leftmost-first preference order.  The character classes are modelled on
the ASCII subdomain only: in the Rust regex crate \d is the Unicode class
Nd and (?i)K case-folds beyond ASCII (it also matches the Kelvin sign), so
the real PATTERN additionally accepts non-ASCII digit characters — on
which the source then panics at parse::<u32>().unwrap() for body digits,
or returns a non-ASCII dv.  The embedding is exact on ASCII inputs, and
every theorem quantifying over parser inputs restricts to that subdomain
(concrete inputs in the theorems are all ASCII; the strings produced by
to_format are ASCII as well).
-/

/-- Error enum from src/error.rs. -/
inductive Error where
  | InvalidDV (must_be instead : Char)
  | InvalidFormat
  | OutOfRange
deriving DecidableEq

/-- Rut struct from src/lib.rs: a number (u32) and a check character. -/
structure Rut where
  number : Nat
  dv : Char
deriving DecidableEq

/-- Format enum from src/lib.rs. -/
inductive Format where
  | DOTS
  | DASH
  | NONE
deriving DecidableEq

namespace Range

/-- Range::MIN from src/range.rs. -/
def MIN : Nat := 1000000

/-- Range::MAX from src/range.rs. -/
def MAX : Nat := 99999999

end Range

/-- limit_range from src/utils.rs: wrap the weight back to Range::Init = 2
once it passes Range::Limit = 7. -/
def limit_range (number : Nat) : Nat :=
  if number > 7 then 2 else number

/-- mod_eleven from src/utils.rs: 11 - (number % 11).  The u8 subtraction
cannot underflow since number % 11 ≤ 10. -/
def mod_eleven (number : Nat) : Nat := 11 - number % 11

/-- reversed_numbers from src/utils.rs:
number.to_string().chars().rev().map(to_digit).  Nat.toDigits 10 models
u32 to_string (decimal characters, most significant first). -/
def reversed_numbers (number : Nat) : List Nat :=
  ((Nat.toDigits 10 number).reverse).map (fun c => c.toNat - 48)

/-- The loop of sum_product from src/utils.rs with u8 wrapping semantics
(release profile): `total += number * range` is a u8 multiplication and a
u8 addition, each reduced mod 256. -/
def sumProductAux : List Nat → Nat → Nat → Nat
  | [], total, _ => total
  | d :: ds, total, range =>
      sumProductAux ds ((total + d * range % 256) % 256) (limit_range (range + 1))

/-- sum_product from src/utils.rs (u8 accumulator, wrapping semantics). -/
def sum_product (number : Nat) : Nat :=
  sumProductAux (reversed_numbers number) 0 2

/-- The same accumulation with checked (debug profile) u8 arithmetic:
`none` models the overflow panic of `total += number * range`.  The
product itself cannot overflow on digit inputs (d ≤ 9, range ≤ 7). -/
def sumProductChecked : List Nat → Nat → Nat → Option Nat
  | [], total, _ => some total
  | d :: ds, total, range =>
      if total + d * range < 256 then
        sumProductChecked ds (total + d * range) (limit_range (range + 1))
      else none

/-- Rut::generate_dv from src/lib.rs.  The fallback arm renders dv (then in
1..9) as a decimal string and takes its first character, i.e. its digit
character. -/
def generate_dv (number : Nat) : Char :=
  match mod_eleven (sum_product number) with
  | 10 => 'K'
  | 11 => '0'
  | d => Nat.digitChar d

/-- The dv character class of PATTERN from src/utils.rs, (?i)K|\d,
restricted to ASCII: on ASCII characters the Unicode-aware class accepts
exactly K, k and the decimal digits (beyond ASCII it would also accept
the Kelvin sign and any Unicode Nd digit, which this model's theorems
exclude by quantifying over ASCII inputs only). -/
def matchDV (c : Char) : Bool := c = 'K' || c = 'k' || c.isDigit

/-- Match exactly k digit characters (the \d{k} pieces of PATTERN),
returning the digits consumed and the rest of the input.  Char.isDigit is
\d restricted to ASCII: on non-ASCII Unicode Nd digits the real regex
would match but the source would then panic at parse::<u32>().unwrap(),
so theorems quantifying over inputs restrict to ASCII. -/
def takeDigits : Nat → List Char → Option (List Char × List Char)
  | 0, cs => some ([], cs)
  | _ + 1, [] => none
  | k + 1, c :: cs =>
      if c.isDigit then (takeDigits k cs).map (fun p => (c :: p.1, p.2)) else none

/-- Match an optional literal (the (?:\.)? and (?:-)? pieces of PATTERN);
`present` is the backtracking choice of whether this occurrence consumes
the literal. -/
def expect (ch : Char) (present : Bool) (cs : List Char) : Option (List Char) :=
  if present then
    match cs with
    | c :: rest => if c = ch then some rest else none
    | [] => none
  else some cs

/-- One backtracking alternative of PATTERN: `a` leading digits, the three
optional-literal choices, then the dv character and end of input.  Returns
the digit characters of the number group (the dots the source strips with
replace(".", "") are never collected) and the dv character. -/
def tryShape (a : Nat) (dot1 dot2 dash : Bool) (cs : List Char) : Option (List Char × Char) :=
  (takeDigits a cs).bind fun p1 =>
  (expect '.' dot1 p1.2).bind fun cs1 =>
  (takeDigits 3 cs1).bind fun p2 =>
  (expect '.' dot2 p2.2).bind fun cs2 =>
  (takeDigits 3 cs2).bind fun p3 =>
  (expect '-' dash p3.2).bind fun cs3 =>
  match cs3 with
  | [d] => if matchDV d then some (p1.1 ++ p2.1 ++ p3.1, d) else none
  | _ => none

/-- The 16 alternatives of PATTERN in the regex engine's leftmost-first
preference order: \d{1,2} greedily prefers 2 digits, and each (?:x)?
prefers to consume its literal. -/
def shapesList : List (Nat × Bool × Bool × Bool) :=
  [(2, true, true, true), (2, true, true, false), (2, true, false, true), (2, true, false, false),
   (2, false, true, true), (2, false, true, false), (2, false, false, true), (2, false, false, false),
   (1, true, true, true), (1, true, true, false), (1, true, false, true), (1, true, false, false),
   (1, false, true, true), (1, false, true, false), (1, false, false, true), (1, false, false, false)]

/-- Anchored match of PATTERN against the whole input: the first
alternative (in preference order) that matches wins. -/
def findShape (cs : List Char) : Option (List Char × Char) :=
  shapesList.findSome? (fun s => tryShape s.1 s.2.1 s.2.2.1 s.2.2.2 cs)

/-- Numeric value of a digit character. -/
def charToDigit (c : Char) : Nat := c.toNat - 48

/-- Decimal value of a digit string: models str::parse::<u32> on the
number capture after the dots are removed (at most 8 digits, so the u32
never overflows and parse never fails). -/
def digitsToNat (cs : List Char) : Nat :=
  cs.foldl (fun acc c => 10 * acc + charToDigit c) 0

/-- to_uppercase applied to the one-character dv capture. -/
def upcaseDV (c : Char) : Char := if c = 'k' then 'K' else c

/-- Rut::extract_from from src/lib.rs: match PATTERN, strip the dots from
the number capture and parse it, uppercase the dv capture. -/
def extract_from (input : List Char) : Except Error Rut :=
  match findShape input with
  | some (ds, d) => .ok ⟨digitsToNat ds, upcaseDV d⟩
  | none => .error .InvalidFormat

/-- Rut::from_number from src/lib.rs: (MIN..MAX).contains(&number), a
half-open range test. -/
def from_number (number : Nat) : Except Error Rut :=
  if Range.MIN ≤ number ∧ number < Range.MAX then
    .ok ⟨number, generate_dv number⟩
  else .error .OutOfRange

/-- Rut::check_dv from src/lib.rs.  The source unwraps
Rut::from_number(unsigned_rut.number); `none` models the panic of that
unwrap when from_number returns Err(OutOfRange). -/
def check_dv (unsigned_rut : Rut) : Option (Except Error Rut) :=
  match from_number unsigned_rut.number with
  | .ok signed_rut =>
      if unsigned_rut.dv ≠ signed_rut.dv then
        some (.error (.InvalidDV signed_rut.dv unsigned_rut.dv))
      else some (.ok signed_rut)
  | .error _ => none

/-- Rut::from from src/lib.rs (`from` is a Lean keyword, hence rutFrom).
`none` models a panic escaping the call. -/
def rutFrom (input : String) : Option (Except Error Rut) :=
  match extract_from input.data with
  | .ok unverified_rut => check_dv unverified_rut
  | .error e => some (.error e)

/-- Rut::randomize from src/lib.rs, with the value drawn by random_number
passed explicitly: rand.gen_range(MIN, MAX) yields some number with
MIN ≤ number < MAX, and randomize pairs it with its generated dv. -/
def randomize (number : Nat) : Rut :=
  ⟨number, generate_dv number⟩

/-- es_CL thousands grouping of num-format (to_formatted_string): insert
'.' after every three digits, counted from the right.  The argument is the
reversed digit-character list. -/
def dotsAux : List Char → List Char
  | [] => []
  | [a] => [a]
  | [a, b] => [a, b]
  | [a, b, c] => [a, b, c]
  | a :: b :: c :: rest => a :: b :: c :: '.' :: dotsAux rest

/-- Rut::to_format from src/lib.rs; DOTS renders the number with
to_formatted_string(&Locale::es_CL), DASH and NONE with plain Display. -/
def to_format (r : Rut) (format : Format) : String :=
  match format with
  | .DOTS => String.mk ((dotsAux ((Nat.toDigits 10 r.number).reverse)).reverse ++ '-' :: [r.dv])
  | .DASH => String.mk (Nat.toDigits 10 r.number ++ '-' :: [r.dv])
  | .NONE => String.mk (Nat.toDigits 10 r.number ++ [r.dv])

/-- impl fmt::Display for Rut from src/lib.rs. -/
def rutDisplay (r : Rut) : String := to_format r Format.DASH

/-- Reference checksum, following the spec's words (§4.1): reverse the
decimal digits, weight them 2,3,4,5,6,7,2,3,... , sum digit*weight into an
unbounded total, take residue = 11 - total % 11, and map 10 to 'K', 11 to
'0', otherwise to the decimal digit character. -/
def specSumAux : List Nat → Nat → Nat → Nat
  | [], total, _ => total
  | d :: ds, total, weight =>
      specSumAux ds (total + d * weight) (if weight + 1 > 7 then 2 else weight + 1)

/-- Reference check digit (spec §4.1), built on the unbounded sum. -/
def computeCheckDigit (n : Nat) : Char :=
  if 11 - specSumAux (reversed_numbers n) 0 2 % 11 = 10 then 'K'
  else if 11 - specSumAux (reversed_numbers n) 0 2 % 11 = 11 then '0'
  else Nat.digitChar (11 - specSumAux (reversed_numbers n) 0 2 % 11)

/-- The input shape, following the spec's words (§4.3): 1-2 leading
digits, an optional dot, exactly 3 digits, an optional dot, exactly 3
digits, an optional dash, and one check character (a digit or K/k). -/
def shapeSpec (cs : List Char) : Prop :=
  ∃ (lead dot1 g1 dot2 g2 dash : List Char) (d : Char),
    cs = lead ++ dot1 ++ g1 ++ dot2 ++ g2 ++ dash ++ [d] ∧
    (lead.length = 1 ∨ lead.length = 2) ∧ (∀ c ∈ lead, c.isDigit) ∧
    (dot1 = [] ∨ dot1 = ['.']) ∧
    g1.length = 3 ∧ (∀ c ∈ g1, c.isDigit) ∧
    (dot2 = [] ∨ dot2 = ['.']) ∧
    g2.length = 3 ∧ (∀ c ∈ g2, c.isDigit) ∧
    (dash = [] ∨ dash = ['-']) ∧
    (d.isDigit ∨ d = 'K' ∨ d = 'k')

/-- The Rut values the construction paths can produce: the number passes
the range check and dv is its generated check character. -/
def validRut (r : Rut) : Prop :=
  Range.MIN ≤ r.number ∧ r.number < Range.MAX ∧ r.dv = generate_dv r.number

/-- Inversion for from_number: a successful call means the number passed
the half-open range check and the dv was generated from it. -/
theorem from_number_ok {n : Nat} {s : Rut} (h : from_number n = Except.ok s) :
    s = ⟨n, generate_dv n⟩ ∧ Range.MIN ≤ n ∧ n < Range.MAX := by
  by_cases hc : Range.MIN ≤ n ∧ n < Range.MAX
  · rw [from_number, if_pos hc] at h
    exact ⟨(Except.ok.inj h).symm, hc⟩
  · rw [from_number, if_neg hc] at h
    exact Except.noConfusion h

/-- Inversion for check_dv: a successful check means the claimed dv was the
generated one and the number was in range. -/
theorem check_dv_ok {u r : Rut} (h : check_dv u = some (Except.ok r)) :
    r = ⟨u.number, generate_dv u.number⟩ ∧ u.dv = generate_dv u.number ∧
      Range.MIN ≤ u.number ∧ u.number < Range.MAX := by
  cases hfn : from_number u.number with
  | ok s =>
      obtain ⟨rfl, hmin, hmax⟩ := from_number_ok hfn
      simp only [check_dv, hfn] at h
      by_cases hd : u.dv ≠ (⟨u.number, generate_dv u.number⟩ : Rut).dv
      · rw [if_pos hd] at h
        simp at h
      · rw [if_neg hd] at h
        simp only [not_not] at hd
        obtain rfl : (⟨u.number, generate_dv u.number⟩ : Rut) = r := by
          simpa using h
        exact ⟨rfl, hd, hmin, hmax⟩
  | error e =>
      simp only [check_dv, hfn] at h
      exact Option.noConfusion h

/-- Inversion for Rut::from: success factors through extract_from and
check_dv. -/
theorem rutFrom_ok {input : String} {r : Rut} (h : rutFrom input = some (Except.ok r)) :
    ∃ u : Rut, extract_from input.data = Except.ok u ∧ check_dv u = some (Except.ok r) := by
  cases he : extract_from input.data with
  | ok u =>
      refine ⟨u, rfl, ?_⟩
      rw [rutFrom, he] at h
      exact h
  | error e =>
      rw [rutFrom, he] at h
      simp at h

/-- Claim C1: the claim asserts Rut::from never aborts, but the input
"00000000" matches PATTERN (number 0, dv '0'), and check_dv then unwraps
Rut::from_number(0) = Err(OutOfRange), a panic (modelled as none). -/
theorem c1_from_panics :
    extract_from ("00000000".data) = Except.ok ⟨0, '0'⟩ ∧
    rutFrom "00000000" = none :=
  ⟨rfl, rfl⟩

/-- Claim C2: the claim asserts the u8 weighted-sum accumulation never
fails for numbers accepted by the construction paths, but from_number
accepts 99999998, whose weighted sum 286 overflows u8: the checked (debug)
accumulation panics, and the wrapping (release) accumulation yields
286 % 256 = 30 and dv '3'. -/
theorem c2_sum_overflow :
    from_number 99999998 = Except.ok ⟨99999998, '3'⟩ ∧
    sumProductChecked (reversed_numbers 99999998) 0 2 = none ∧
    sum_product 99999998 = 30 ∧
    specSumAux (reversed_numbers 99999998) 0 2 = 286 :=
  ⟨rfl, rfl, by decide, by decide⟩

/-- Claim C3: from_number succeeds exactly on the half-open interval
[1000000, 99999999), returning a Rut carrying the input number, and fails
with OutOfRange outside it. -/
theorem c3_from_number_range (n : Nat) (_h : n < 2 ^ 32) :
    (1000000 ≤ n ∧ n < 99999999 →
      ∃ r : Rut, from_number n = Except.ok r ∧ r.number = n) ∧
    (¬(1000000 ≤ n ∧ n < 99999999) →
      from_number n = Except.error Error.OutOfRange) := by
  constructor
  · intro hin
    refine ⟨⟨n, generate_dv n⟩, ?_, rfl⟩
    rw [from_number, if_pos]
    exact hin
  · intro hout
    rw [from_number, if_neg]
    exact hout

/-- Witness for C3 at n = 17951585 (inside) and n = 999999 (outside). -/
theorem c3_from_number_range_witness :
    (∃ r : Rut, from_number 17951585 = Except.ok r ∧ r.number = 17951585) ∧
    from_number 999999 = Except.error Error.OutOfRange :=
  ⟨(c3_from_number_range 17951585 (by decide)).1 (by decide),
   (c3_from_number_range 999999 (by decide)).2 (by decide)⟩

/-- Claim C4: the claim asserts generate_dv equals the reference modulo-11
checksum for every input, and its three known vectors do hold, but at
99999998 the u8 accumulator wraps: the code yields '3' while the reference
checksum yields '0'. -/
theorem c4_dv_vs_reference :
    generate_dv 17951585 = '7' ∧ generate_dv 12621806 = '0' ∧
    generate_dv 24136773 = '8' ∧
    generate_dv 99999998 = '3' ∧ computeCheckDigit 99999998 = '0' :=
  ⟨by decide, by decide, by decide, by decide, by decide⟩

/-- Claim C5: every Rut returned by Rut::from, Rut::from_number or
Rut::randomize satisfies dv = generate_dv number, and randomize keeps the
sampled number (any value the sampler can draw) in the accepted range. -/
theorem c5_invariant (input : String) (r : Rut)
    (h1 : rutFrom input = some (Except.ok r))
    (n : Nat) (s : Rut) (h2 : from_number n = Except.ok s)
    (k : Nat) (hk1 : Range.MIN ≤ k) (hk2 : k < Range.MAX) :
    r.dv = generate_dv r.number ∧
    s.dv = generate_dv s.number ∧
    (randomize k).dv = generate_dv ((randomize k).number) ∧
    Range.MIN ≤ (randomize k).number ∧ (randomize k).number < Range.MAX := by
  obtain ⟨u, _, hch⟩ := rutFrom_ok h1
  obtain ⟨rfl, _, _, _⟩ := check_dv_ok hch
  obtain ⟨rfl, _, _⟩ := from_number_ok h2
  exact ⟨rfl, rfl, rfl, hk1, hk2⟩

/-- Witness for C5 with the parsed Rut 17951585-7, the numeric input
24136773 and the sampled value 17951585. -/
theorem c5_invariant_witness :
    (⟨17951585, '7'⟩ : Rut).dv = generate_dv (⟨17951585, '7'⟩ : Rut).number ∧
    (⟨24136773, '8'⟩ : Rut).dv = generate_dv (⟨24136773, '8'⟩ : Rut).number ∧
    (randomize 17951585).dv = generate_dv ((randomize 17951585).number) ∧
    Range.MIN ≤ (randomize 17951585).number ∧ (randomize 17951585).number < Range.MAX :=
  c5_invariant "17951585-7" ⟨17951585, '7'⟩ (by rfl) 24136773 ⟨24136773, '8'⟩ (by rfl)
    17951585 (by decide) (by decide)

/-- Claim C8: the claim asserts every parsed input with a wrong claimed dv
yields InvalidDV with the computed and claimed characters; that holds for
"17951585-K", but "0000001-8" parses to number 1 with claimed dv '8' ≠
computed '9', and check_dv panics on the out-of-range unwrap instead of
returning InvalidDV. -/
theorem c8_dv_mismatch_panic :
    rutFrom "17951585-K" = some (Except.error (Error.InvalidDV '7' 'K')) ∧
    extract_from ("0000001-8".data) = Except.ok ⟨1, '8'⟩ ∧
    generate_dv 1 = '9' ∧
    rutFrom "0000001-8" = none :=
  ⟨rfl, rfl, by decide, rfl⟩

/-- Claim C9: the three renderings of the Rut 5665328-'7', and Display
equals the DASH rendering for every Rut. -/
theorem c9_formats :
    to_format ⟨5665328, '7'⟩ Format.DOTS = "5.665.328-7" ∧
    to_format ⟨5665328, '7'⟩ Format.DASH = "5665328-7" ∧
    to_format ⟨5665328, '7'⟩ Format.NONE = "56653287" ∧
    ∀ r : Rut, rutDisplay r = to_format r Format.DASH :=
  ⟨by decide, by decide, by decide, fun _ => rfl⟩

/-- Claim C10: a single dot at only one group boundary is accepted:
"5.665328-7" parses to the same Rut as "5665328-7". -/
theorem c10_single_dot :
    rutFrom "5.665328-7" = some (Except.ok ⟨5665328, '7'⟩) ∧
    rutFrom "5665328-7" = some (Except.ok ⟨5665328, '7'⟩) :=
  ⟨rfl, rfl⟩

/-- A digit character is not a dot. -/
theorem digit_ne_dot {c : Char} (h : c.isDigit = true) : c ≠ '.' := by
  rintro rfl
  exact absurd h (by decide)

/-- A digit character is not a dash. -/
theorem digit_ne_dash {c : Char} (h : c.isDigit = true) : c ≠ '-' := by
  rintro rfl
  exact absurd h (by decide)

/-- The dash is not a digit. -/
theorem dash_not_digit : ('-' : Char).isDigit = false := by decide

/-- takeDigits only succeeds by splitting off exactly k digit characters. -/
theorem takeDigits_sound {k : Nat} {cs l rest : List Char}
    (h : takeDigits k cs = some (l, rest)) :
    cs = l ++ rest ∧ l.length = k ∧ ∀ c ∈ l, c.isDigit = true := by
  induction k generalizing cs l rest with
  | zero =>
      simp only [takeDigits, Option.some.injEq, Prod.mk.injEq] at h
      obtain ⟨rfl, rfl⟩ := h
      simp
  | succ k ih =>
      cases cs with
      | nil => simp [takeDigits] at h
      | cons c cs' =>
          by_cases hc : c.isDigit = true
          · rw [takeDigits, if_pos hc] at h
            cases ht : takeDigits k cs' with
            | none => rw [ht] at h; exact Option.noConfusion h
            | some p =>
                obtain ⟨l', rest'⟩ := p
                rw [ht] at h
                simp only [Option.map_some', Option.some.injEq, Prod.mk.injEq] at h
                obtain ⟨rfl, rfl⟩ := h
                obtain ⟨rfl, hlen, hdig⟩ := ih ht
                refine ⟨rfl, by simp [hlen], ?_⟩
                intro x hx
                rcases List.mem_cons.mp hx with rfl | hx
                · exact hc
                · exact hdig x hx
          · rw [takeDigits, if_neg hc] at h
            exact Option.noConfusion h

/-- takeDigits consumes any block of digits laid before an arbitrary rest. -/
theorem takeDigits_complete : ∀ (l : List Char), (∀ c ∈ l, c.isDigit = true) →
    ∀ rest : List Char, takeDigits l.length (l ++ rest) = some (l, rest)
  | [], _, _ => rfl
  | c :: l, hd, rest => by
      have hc : c.isDigit = true := hd c (List.mem_cons_self c l)
      have ih := takeDigits_complete l (fun x hx => hd x (List.mem_cons_of_mem c hx)) rest
      simp [takeDigits, hc, ih]

/-- expect only succeeds by splitting off the optional literal it was set
to consume. -/
theorem expect_sound {ch : Char} {b : Bool} {cs rest : List Char}
    (h : expect ch b cs = some rest) :
    cs = (if b then [ch] else []) ++ rest := by
  cases b with
  | false =>
      simp only [expect, if_neg, Bool.false_eq_true, not_false_iff, Option.some.injEq] at h
      simp [h]
  | true =>
      cases cs with
      | nil => simp [expect] at h
      | cons c cs' =>
          by_cases hc : c = ch
          · subst hc
            simp only [expect, if_pos, if_true, Option.some.injEq] at h
            simp [h]
          · simp [expect, hc] at h

/-- expect consumes the literal when set to. -/
theorem expect_complete {ch : Char} (b : Bool) (rest : List Char) :
    expect ch b ((if b then [ch] else []) ++ rest) = some rest := by
  cases b <;> simp [expect]

/-- The dv class of PATTERN accepts exactly digits and K/k. -/
theorem matchDV_iff {d : Char} :
    matchDV d = true ↔ (d.isDigit = true ∨ d = 'K' ∨ d = 'k') := by
  simp only [matchDV, Bool.or_eq_true, decide_eq_true_eq]
  tauto


/-- A successful alternative of PATTERN yields a decomposition witnessing
the spec's shape. -/
theorem tryShape_sound {a : Nat} {d1 d2 ds : Bool} {cs num : List Char} {d : Char}
    (h : tryShape a d1 d2 ds cs = some (num, d)) (ha : a = 1 ∨ a = 2) :
    shapeSpec cs := by
  unfold tryShape at h
  cases h1 : takeDigits a cs with
  | none => rw [h1] at h; exact Option.noConfusion h
  | some p1 =>
  obtain ⟨l1, r1⟩ := p1
  rw [h1, Option.some_bind] at h
  cases h2 : expect '.' d1 r1 with
  | none => rw [h2] at h; exact Option.noConfusion h
  | some r2 =>
  rw [h2, Option.some_bind] at h
  cases h3 : takeDigits 3 r2 with
  | none => rw [h3] at h; exact Option.noConfusion h
  | some p3 =>
  obtain ⟨l3, r3⟩ := p3
  rw [h3, Option.some_bind] at h
  cases h4 : expect '.' d2 r3 with
  | none => rw [h4] at h; exact Option.noConfusion h
  | some r4 =>
  rw [h4, Option.some_bind] at h
  cases h5 : takeDigits 3 r4 with
  | none => rw [h5] at h; exact Option.noConfusion h
  | some p5 =>
  obtain ⟨l5, r5⟩ := p5
  rw [h5, Option.some_bind] at h
  cases h6 : expect '-' ds r5 with
  | none => rw [h6] at h; exact Option.noConfusion h
  | some r6 =>
  rw [h6, Option.some_bind] at h
  rcases r6 with _ | ⟨d', _ | ⟨x, t⟩⟩
  · exact Option.noConfusion h
  · by_cases hDV : matchDV d' = true
    · simp only [hDV, if_true, Option.some.injEq, Prod.mk.injEq] at h
      obtain ⟨rfl, rfl⟩ := h
      obtain ⟨rfl, hl1, hd1⟩ := takeDigits_sound h1
      have e2 := expect_sound h2
      obtain ⟨rfl, hl3, hd3⟩ := takeDigits_sound h3
      have e4 := expect_sound h4
      obtain ⟨rfl, hl5, hd5⟩ := takeDigits_sound h5
      have e6 := expect_sound h6
      refine ⟨l1, if d1 then ['.'] else [], l3, if d2 then ['.'] else [], l5,
        if ds then ['-'] else [], d', ?_, ?_, hd1, ?_, hl3, hd3, ?_, hl5, hd5, ?_, ?_⟩
      · rw [e2, e4, e6]
        simp [List.append_assoc]
      · rcases ha with rfl | rfl
        · exact Or.inl hl1
        · exact Or.inr hl1
      · cases d1 <;> simp
      · cases d2 <;> simp
      · cases ds <;> simp
      · exact matchDV_iff.mp hDV
    · simp [hDV] at h
  · exact Option.noConfusion h

/-- Any decomposition witnessing the spec's shape makes the corresponding
alternative of PATTERN succeed. -/
theorem tryShape_complete {lead g1 g2 : List Char} (dot1 dot2 dash : Bool) {d : Char}
    (hlead : ∀ c ∈ lead, c.isDigit = true) (hg1 : ∀ c ∈ g1, c.isDigit = true)
    (hg2 : ∀ c ∈ g2, c.isDigit = true) (h1 : g1.length = 3) (h2 : g2.length = 3)
    (hd : matchDV d = true) :
    tryShape lead.length dot1 dot2 dash
      (lead ++ (if dot1 then ['.'] else []) ++ g1 ++ (if dot2 then ['.'] else []) ++
        g2 ++ (if dash then ['-'] else []) ++ [d]) = some (lead ++ g1 ++ g2, d) := by
  unfold tryShape
  rw [List.append_assoc, List.append_assoc, List.append_assoc, List.append_assoc,
    List.append_assoc, takeDigits_complete lead hlead, Option.some_bind,
    expect_complete dot1, Option.some_bind]
  have t1 := takeDigits_complete g1 hg1
    ((if dot2 then ['.'] else []) ++ (g2 ++ ((if dash then ['-'] else []) ++ [d])))
  rw [h1] at t1
  rw [t1, Option.some_bind, expect_complete dot2, Option.some_bind]
  have t2 := takeDigits_complete g2 hg2 ((if dash then ['-'] else []) ++ [d])
  rw [h2] at t2
  rw [t2, Option.some_bind, expect_complete dash, Option.some_bind]
  simp [hd]

/-- findSome? succeeds whenever some member of the list succeeds. -/
theorem findSome?_isSome_of_mem {α β : Type} {f : α → Option β} {l : List α} {x : α}
    (hx : x ∈ l) (hfx : (f x).isSome = true) : (l.findSome? f).isSome = true := by
  induction l with
  | nil => cases hx
  | cons y l ih =>
      rw [List.findSome?_cons]
      cases hy : f y with
      | some b => rfl
      | none =>
          rcases List.mem_cons.mp hx with rfl | hx'
          · rw [hy] at hfx; exact Bool.noConfusion hfx
          · exact ih hx'

/-- The spec's shape makes the embedded PATTERN match. -/
theorem findShape_isSome_of_shapeSpec {cs : List Char} (h : shapeSpec cs) :
    (findShape cs).isSome = true := by
  obtain ⟨lead, dot1, g1, dot2, g2, dash, d, hcs, hlen, hleaddig, hdot1, hg1len,
    hg1dig, hdot2, hg2len, hg2dig, hdash, hd⟩ := h
  have hdot1' : ∃ b : Bool, dot1 = (if b then ['.'] else []) := by
    rcases hdot1 with rfl | rfl
    exacts [⟨false, rfl⟩, ⟨true, rfl⟩]
  have hdot2' : ∃ b : Bool, dot2 = (if b then ['.'] else []) := by
    rcases hdot2 with rfl | rfl
    exacts [⟨false, rfl⟩, ⟨true, rfl⟩]
  have hdash' : ∃ b : Bool, dash = (if b then ['-'] else []) := by
    rcases hdash with rfl | rfl
    exacts [⟨false, rfl⟩, ⟨true, rfl⟩]
  obtain ⟨b1, rfl⟩ := hdot1'
  obtain ⟨b2, rfl⟩ := hdot2'
  obtain ⟨b3, rfl⟩ := hdash'
  have key := tryShape_complete b1 b2 b3 hleaddig hg1dig hg2dig hg1len hg2len
    (matchDV_iff.mpr hd)
  have hmem : (lead.length, b1, b2, b3) ∈ shapesList := by
    rcases hlen with h | h <;> rw [h] <;> cases b1 <;> cases b2 <;> cases b3 <;> decide
  rw [findShape, List.findSome?_isSome_iff]
  refine ⟨(lead.length, b1, b2, b3), hmem, ?_⟩
  rw [hcs]
  rw [key]
  rfl

/-- A successful embedded PATTERN match witnesses the spec's shape. -/
theorem shapeSpec_of_findShape {cs num : List Char} {d : Char}
    (h : findShape cs = some (num, d)) : shapeSpec cs := by
  obtain ⟨s, hmem, hs⟩ := List.exists_of_findSome?_eq_some h
  have ha : ∀ t ∈ shapesList, t.1 = 1 ∨ t.1 = 2 := by decide
  exact tryShape_sound hs (ha s hmem)

/-- Claim C7 counterexample: "17951585-K" matches the spec's shape, yet
Rut::from does not succeed on it — so Rut::from does not succeed exactly
on the shape-matching strings. -/
theorem c7_shape_counterexample :
    shapeSpec ("17951585-K".data) ∧
    ∀ r : Rut, rutFrom "17951585-K" ≠ some (Except.ok r) := by
  constructor
  · exact ⟨['1', '7'], [], ['9', '5', '1'], [], ['5', '8', '5'], ['-'], 'K',
      by decide, by decide, by decide, by decide, by decide, by decide,
      by decide, by decide, by decide, by decide, by decide⟩
  · intro r hr
    rw [show rutFrom "17951585-K" = some (Except.error (Error.InvalidDV '7' 'K')) from rfl]
      at hr
    simp at hr

/-- Claim C7 (amended): restricted to ASCII inputs — the domain on which
the embedding of PATTERN is exact, since Rust regex \d is the Unicode
class Nd and (?i)K case-folds beyond ASCII — the parser stage,
Rut::extract_from, succeeds exactly on the strings matching the spec's
shape; the three example inputs parse successfully through Rut::from and
the comma-separated input fails with InvalidFormat. -/
theorem c7_extract_shape :
    (∀ cs : List Char, (∀ c ∈ cs, c.toNat < 128) →
      ((∃ u : Rut, extract_from cs = Except.ok u) ↔ shapeSpec cs)) ∧
    rutFrom "17951585-7" = some (Except.ok ⟨17951585, '7'⟩) ∧
    rutFrom "5.665.328-7" = some (Except.ok ⟨5665328, '7'⟩) ∧
    rutFrom "241367738" = some (Except.ok ⟨24136773, '8'⟩) ∧
    rutFrom "17.951,585-7" = some (Except.error Error.InvalidFormat) := by
  refine ⟨fun cs _ => ⟨?_, ?_⟩, rfl, rfl, rfl, rfl⟩
  · rintro ⟨u, hu⟩
    cases hf : findShape cs with
    | none => rw [extract_from, hf] at hu; exact Except.noConfusion hu
    | some p =>
        obtain ⟨num, d⟩ := p
        exact shapeSpec_of_findShape hf
  · intro hs
    have hsome := findShape_isSome_of_shapeSpec hs
    cases hf : findShape cs with
    | none => rw [hf] at hsome; exact Bool.noConfusion hsome
    | some p =>
        obtain ⟨num, d⟩ := p
        exact ⟨⟨digitsToNat num, upcaseDV d⟩, by rw [extract_from, hf]⟩

/-- Witness for C7's characterization: instantiated at the ASCII input
"241367738", whose successful extraction exhibits the spec's shape. -/
theorem c7_extract_shape_witness : shapeSpec ("241367738".data) :=
  (c7_extract_shape.1 ("241367738".data) (by decide)).mp ⟨⟨24136773, '8'⟩, by rfl⟩

/-- The fueled core of Nat.toDigits agrees with Mathlib's Nat.digits when
the fuel covers the number. -/
theorem toDigitsCore_eq_digits (fuel : Nat) : ∀ (n : Nat) (ds : List Char), 0 < n →
    n < 10 ^ fuel →
    Nat.toDigitsCore 10 fuel n ds = ((Nat.digits 10 n).reverse.map Nat.digitChar) ++ ds := by
  induction fuel with
  | zero =>
      intro n ds hn h
      rw [pow_zero] at h
      omega
  | succ fuel ih =>
      intro n ds hn h
      rw [Nat.toDigitsCore]
      by_cases h10 : n / 10 = 0
      · have hlt : n < 10 := (Nat.div_eq_zero_iff (by norm_num)).mp h10
        simp only [h10, if_true]
        rw [Nat.digits_def' (by norm_num : (1 : Nat) < 10) hn, h10, Nat.digits_zero]
        simp
      · simp only [h10, if_false]
        have h1 : 0 < n / 10 := Nat.pos_of_ne_zero h10
        have h2 : n / 10 < 10 ^ fuel := by
          rw [pow_succ] at h
          exact Nat.div_lt_of_lt_mul (by omega)
        rw [ih (n / 10) (Nat.digitChar (n % 10) :: ds) h1 h2]
        rw [Nat.digits_def' (by norm_num : (1 : Nat) < 10) hn]
        simp [List.append_assoc]

/-- u32 to_string (Nat.toDigits) produces the base-10 digits of n, most
significant first, as digit characters. -/
theorem toDigits_eq_digits {n : Nat} (hn : 0 < n) :
    Nat.toDigits 10 n = (Nat.digits 10 n).reverse.map Nat.digitChar := by
  have h : n < 10 ^ (n + 1) :=
    lt_of_lt_of_le (Nat.lt_pow_self (by norm_num) n)
      (Nat.pow_le_pow_right (by norm_num) (Nat.le_succ n))
  simpa [Nat.toDigits] using toDigitsCore_eq_digits (n + 1) n [] hn h

/-- Every character of a rendered positive number is an ASCII digit. -/
theorem toDigits_all_digits {n : Nat} (hn : 0 < n) :
    ∀ c ∈ Nat.toDigits 10 n, c.isDigit = true := by
  rw [toDigits_eq_digits hn]
  intro c hc
  simp only [List.mem_map, List.mem_reverse] at hc
  obtain ⟨d, hd, rfl⟩ := hc
  have hdlt : d < 10 := Nat.digits_lt_base (by norm_num) hd
  have hall : ∀ m, m < 10 → (Nat.digitChar m).isDigit = true := by decide
  exact hall d hdlt

/-- A number in [1000000, 99999999) renders to 7 or 8 characters. -/
theorem toDigits_len {n : Nat} (h1 : 1000000 ≤ n) (h2 : n < 99999999) :
    (Nat.toDigits 10 n).length = 7 ∨ (Nat.toDigits 10 n).length = 8 := by
  have hn : 0 < n := by omega
  rw [toDigits_eq_digits hn]
  rw [List.length_map, List.length_reverse]
  rw [Nat.digits_len 10 n (by norm_num) (by omega)]
  rcases lt_or_le n 10000000 with h | h
  · left
    have hlog : Nat.log 10 n = 6 :=
      Nat.log_eq_of_pow_le_of_lt_pow
        (by rw [show (10 : Nat) ^ 6 = 1000000 from by norm_num]; omega)
        (by rw [show (10 : Nat) ^ (6 + 1) = 10000000 from by norm_num]; omega)
    rw [hlog]
  · right
    have hlog : Nat.log 10 n = 7 :=
      Nat.log_eq_of_pow_le_of_lt_pow
        (by rw [show (10 : Nat) ^ 7 = 10000000 from by norm_num]; omega)
        (by rw [show (10 : Nat) ^ (7 + 1) = 100000000 from by norm_num]; omega)
    rw [hlog]

/-- Folding the decimal digits most-significant-first recovers ofDigits. -/
theorem foldr_digits_eq_ofDigits : ∀ (l : List Nat), (∀ d ∈ l, d < 10) →
    (l.map Nat.digitChar).foldr (fun c acc => 10 * acc + charToDigit c) 0 =
      Nat.ofDigits 10 l
  | [], _ => by simp
  | d :: l, h => by
      have hd : d < 10 := h d (List.mem_cons_self d l)
      have hinv : ∀ m, m < 10 → charToDigit (Nat.digitChar m) = m := by decide
      have ih := foldr_digits_eq_ofDigits l (fun x hx => h x (List.mem_cons_of_mem d hx))
      simp only [List.map_cons, List.foldr_cons, ih, hinv d hd, Nat.ofDigits_cons]
      ring

/-- Parsing back the rendered decimal string of n recovers n. -/
theorem digitsToNat_toDigits {n : Nat} (hn : 0 < n) :
    digitsToNat (Nat.toDigits 10 n) = n := by
  rw [toDigits_eq_digits hn, digitsToNat, List.map_reverse, List.foldl_reverse]
  rw [foldr_digits_eq_ofDigits (Nat.digits 10 n)
    (fun d hd => Nat.digits_lt_base (by norm_num) hd)]
  exact Nat.ofDigits_digits 10 n

/-- A list of length 7 is seven explicit elements. -/
theorem length7_cases {l : List Char} (h : l.length = 7) :
    ∃ a b c d e f g, l = [a, b, c, d, e, f, g] := by
  rcases l with _ | ⟨a, l⟩
  · simp only [List.length_nil] at h
    omega
  rcases l with _ | ⟨b, l⟩
  · simp only [List.length_cons, List.length_nil] at h
    omega
  rcases l with _ | ⟨c, l⟩
  · simp only [List.length_cons, List.length_nil] at h
    omega
  rcases l with _ | ⟨d, l⟩
  · simp only [List.length_cons, List.length_nil] at h
    omega
  rcases l with _ | ⟨e, l⟩
  · simp only [List.length_cons, List.length_nil] at h
    omega
  rcases l with _ | ⟨f, l⟩
  · simp only [List.length_cons, List.length_nil] at h
    omega
  rcases l with _ | ⟨g, l⟩
  · simp only [List.length_cons, List.length_nil] at h
    omega
  rcases l with _ | ⟨x, l⟩
  · exact ⟨a, b, c, d, e, f, g, rfl⟩
  · simp only [List.length_cons] at h
    omega

/-- A list of length 8 is eight explicit elements. -/
theorem length8_cases {l : List Char} (h : l.length = 8) :
    ∃ a b c d e f g x, l = [a, b, c, d, e, f, g, x] := by
  rcases l with _ | ⟨a, l⟩
  · simp only [List.length_nil] at h
    omega
  have h' : l.length = 7 := by
    simp only [List.length_cons] at h
    omega
  obtain ⟨b, c, d, e, f, g, x, rfl⟩ := length7_cases h'
  exact ⟨a, b, c, d, e, f, g, x, rfl⟩

set_option maxHeartbeats 2000000 in
/-- PATTERN on a 7-digit body followed by dash and dv: the first matching
alternative is 1 leading digit, no dots, a dash. -/
theorem findShape_digits7 {a b c d e f g dv : Char}
    (ha : a.isDigit = true) (hb : b.isDigit = true) (hc : c.isDigit = true)
    (hd : d.isDigit = true) (he : e.isDigit = true) (hf : f.isDigit = true)
    (hg : g.isDigit = true) (hdv : matchDV dv = true) :
    findShape ([a, b, c, d, e, f, g] ++ ['-', dv]) = some ([a, b, c, d, e, f, g], dv) := by
  simp [findShape, shapesList, List.findSome?_cons, tryShape, takeDigits, expect,
    ha, hb, hc, hd, he, hf, hg, hdv, digit_ne_dot hb, digit_ne_dot hc, digit_ne_dot he,
    digit_ne_dot hf, dash_not_digit]

set_option maxHeartbeats 2000000 in
/-- PATTERN on an 8-digit body followed by dash and dv: the first matching
alternative is 2 leading digits, no dots, a dash. -/
theorem findShape_digits8 {a b c d e f g h dv : Char}
    (ha : a.isDigit = true) (hb : b.isDigit = true) (hc : c.isDigit = true)
    (hd : d.isDigit = true) (he : e.isDigit = true) (hf : f.isDigit = true)
    (hg : g.isDigit = true) (hh : h.isDigit = true) (hdv : matchDV dv = true) :
    findShape ([a, b, c, d, e, f, g, h] ++ ['-', dv]) =
      some ([a, b, c, d, e, f, g, h], dv) := by
  simp [findShape, shapesList, List.findSome?_cons, tryShape, takeDigits, expect,
    ha, hb, hc, hd, he, hf, hg, hh, hdv, digit_ne_dot hc, digit_ne_dot hf,
    dash_not_digit]

/-- mod_eleven always lands in [1, 11]. -/
theorem mod_eleven_bounds (n : Nat) : 1 ≤ mod_eleven n ∧ mod_eleven n ≤ 11 := by
  rw [mod_eleven]
  have := Nat.mod_lt n (show 0 < 11 by norm_num)
  omega

/-- generate_dv returns a dv-class character on which to_uppercase is the
identity (a digit, '0', or already-uppercase 'K'). -/
theorem generate_dv_props (n : Nat) :
    matchDV (generate_dv n) = true ∧ upcaseDV (generate_dv n) = generate_dv n := by
  have hbnd := mod_eleven_bounds (sum_product n)
  have key : ∀ m, m < 12 → 1 ≤ m →
      matchDV (match m with | 10 => 'K' | 11 => '0' | d => Nat.digitChar d) = true ∧
      upcaseDV (match m with | 10 => 'K' | 11 => '0' | d => Nat.digitChar d) =
        (match m with | 10 => 'K' | 11 => '0' | d => Nat.digitChar d) := by decide
  exact key (mod_eleven (sum_product n)) (by omega) hbnd.1

/-- Claim C6: round-trip — any valid Rut formatted with Format::DASH
parses back through Rut::from to the same Rut, so formatting, re-parsing
and formatting again yields the identical string. -/
theorem c6_roundtrip (r : Rut) (h : validRut r) :
    rutFrom (to_format r Format.DASH) = some (Except.ok r) ∧
    ∀ s : Rut, rutFrom (to_format r Format.DASH) = some (Except.ok s) →
      to_format s Format.DASH = to_format r Format.DASH := by
  obtain ⟨n, dv⟩ := r
  obtain ⟨hmin, hmax, hdv⟩ := h
  have hmin' : 1000000 ≤ n := hmin
  have hmax' : n < 99999999 := hmax
  have hdv' : dv = generate_dv n := hdv
  have hn : 0 < n := by omega
  have hmain : rutFrom (to_format ⟨n, dv⟩ Format.DASH) = some (Except.ok ⟨n, dv⟩) := by
    have hmdv : matchDV dv = true := by
      rw [hdv']
      exact (generate_dv_props n).1
    have hfind : findShape (Nat.toDigits 10 n ++ ['-', dv]) =
        some (Nat.toDigits 10 n, dv) := by
      have hdig := toDigits_all_digits hn
      rcases toDigits_len hmin' hmax' with h7 | h8
      · obtain ⟨a, b, c, d, e, f, g, heq⟩ := length7_cases h7
        rw [heq] at hdig ⊢
        exact findShape_digits7 (hdig a (by simp)) (hdig b (by simp)) (hdig c (by simp))
          (hdig d (by simp)) (hdig e (by simp)) (hdig f (by simp)) (hdig g (by simp)) hmdv
      · obtain ⟨a, b, c, d, e, f, g, x, heq⟩ := length8_cases h8
        rw [heq] at hdig ⊢
        exact findShape_digits8 (hdig a (by simp)) (hdig b (by simp)) (hdig c (by simp))
          (hdig d (by simp)) (hdig e (by simp)) (hdig f (by simp)) (hdig g (by simp))
          (hdig x (by simp)) hmdv
    have hdata : (to_format ⟨n, dv⟩ Format.DASH).data = Nat.toDigits 10 n ++ ['-', dv] := rfl
    have hfn : from_number n = Except.ok ⟨n, generate_dv n⟩ := by
      rw [from_number, if_pos]
      exact ⟨hmin', hmax'⟩
    simp only [rutFrom, hdata, extract_from, hfind, digitsToNat_toDigits hn]
    rw [hdv', (generate_dv_props n).2]
    simp only [check_dv, hfn]
    simp
  refine ⟨hmain, fun s hs => ?_⟩
  rw [hmain] at hs
  have heq : (⟨n, dv⟩ : Rut) = s := by simpa using hs
  rw [heq]

/-- Witness for C6 at the valid Rut 17951585-'7'. -/
theorem c6_roundtrip_witness :
    rutFrom (to_format ⟨17951585, '7'⟩ Format.DASH) = some (Except.ok ⟨17951585, '7'⟩) :=
  (c6_roundtrip ⟨17951585, '7'⟩ ⟨by decide, by decide, by decide⟩).1
